import Mathlib

/-!
Verification development for the vibe-interview repository: a Node.js/Socket.IO
server that relays captured screen audio to speech-recognition providers
(Deepgram live streaming, a local Whisper batch service, or the browser's Web
Speech API as fallback) and fans transcript events out to connected clients.

The definitions below are shallow embeddings of the JavaScript source:
  - `src/public/app.js` / `src/public/app_with_deepgram.js`: the client-side
    classification heuristics (`detectSpeaker`, `isLikelyMusic`, `detectMusic`,
    the audio monitor loop) and the client socket handlers;
  - `src/utils/deepgram.js`: `DeepgramService` (connection registry,
    `createLiveConnection`, `sendAudioData`, `closeConnection`, the `Results`
    handler);
  - `src/server.js` and the Deepgram server variant: the `audio-data`,
    `transcription` and `start-screen-share` socket handlers and their
    emissions.

Strings are modelled as Lean `String`/`List Char`; the JavaScript string
operations used by the source (`toLowerCase`, `trim`, `includes`, `split`,
and the four regexes of `isLikelyMusic`) are reproduced character-exactly for
ASCII text, which is the alphabet of every keyword list and threshold in the
source. Rational numbers stand in for JavaScript numbers; every quantity the
source computes here (sums, counts, means of 8-bit magnitudes, confidence
thresholds) is exact in ℚ.
-/

namespace VibeInterview

/-! ## JavaScript string primitives -/

/-- The ASCII whitespace characters matched by JavaScript `\s` and removed by
`String.prototype.trim` (space, tab, line feed, vertical tab, form feed,
carriage return). -/
def jsIsSpace (c : Char) : Bool :=
  c = ' ' || c = '\t' || c = '\n' || c = '\x0b' || c = '\x0c' || c = '\r'

/-- JavaScript `String.prototype.trim`: strip whitespace from both ends. -/
def jsTrim (l : List Char) : List Char :=
  ((l.dropWhile jsIsSpace).reverse.dropWhile jsIsSpace).reverse

/-- The `jsTrim` operation on `String`. -/
def jsTrimStr (s : String) : String :=
  ⟨jsTrim s.data⟩

/-- JavaScript `String.prototype.toLowerCase` (ASCII range). -/
def jsToLower (l : List Char) : List Char :=
  l.map Char.toLower

/-- JavaScript `String.prototype.includes`: `needle` occurs contiguously in
`hay`. -/
def listContains (hay needle : List Char) : Bool :=
  hay.tails.any fun t => needle.isPrefixOf t

/-! ## Classifier: speaker/question labeling
(`detectSpeaker`, identical in src/public/app.js:610-624 and
src/public/app_with_deepgram.js:611-625) -/

/-- The fixed bilingual keyword list of `detectSpeaker`
(src/public/app.js:612-614). -/
def questionWords : List String :=
  ["apa", "bagaimana", "mengapa", "kenapa", "siapa", "dimana", "kapan",
   "what", "how", "why", "who", "where", "when", "can you", "could you",
   "tell me", "explain", "describe", "ceritakan", "jelaskan"]

/-- Embeds `ScreenAudioToText.detectSpeaker` (src/public/app.js:610-624): label a
transcript `INTERVIEWER` when the raw text contains a question mark or its
lowercased form contains one of `questionWords`; otherwise `SPEAKER`. -/
def detectSpeaker (text : String) : String :=
  let lowerText := jsToLower text.data
  let hasQuestionMark := text.data.contains '?'
  let hasQuestionWord := questionWords.any fun w => listContains lowerText w.data
  if hasQuestionMark || hasQuestionWord then "INTERVIEWER" else "SPEAKER"

/-! ## Classifier: lexical music filter
(`isLikelyMusic`, identical in src/public/app.js:579-608 and
src/public/app_with_deepgram.js:580-609) -/

/-- Maximal runs of characters satisfying `p` (used for regex word runs,
lines, and JavaScript `split(/\s+/)` on trimmed input). `acc` holds the
current run reversed. -/
def splitRunsAux (p : Char → Bool) : List Char → List Char → List (List Char)
  | [], acc => if acc.isEmpty then [] else [acc.reverse]
  | c :: t, acc =>
    if p c then splitRunsAux p t (c :: acc)
    else if acc.isEmpty then splitRunsAux p t []
    else acc.reverse :: splitRunsAux p t []

/-- Maximal runs of characters satisfying `p` in a character list. -/
def splitRuns (p : Char → Bool) (l : List Char) : List (List Char) :=
  splitRunsAux p l []

/-- The syllable alternatives of the first `isLikelyMusic` regex
`/^(la|na|da|ya|oh|ah|mm|hm)+$/i` (src/public/app.js:582). -/
def fillerSyllables : List (List Char) :=
  [['l', 'a'], ['n', 'a'], ['d', 'a'], ['y', 'a'],
   ['o', 'h'], ['a', 'h'], ['m', 'm'], ['h', 'm']]

/-- Matcher for `(la|na|da|ya|oh|ah|mm|hm)*`: every alternative has length
two, so the regex consumes the input in two-character blocks. -/
def sylRun : List Char → Bool
  | [] => true
  | a :: b :: t => fillerSyllables.contains [a, b] && sylRun t
  | [_] => false

/-- Regex 1 of `isLikelyMusic`: `/^(la|na|da|ya|oh|ah|mm|hm)+$/i`, a nonempty
concatenation of filler syllables (the input is already lowercased). -/
def musicPattern1 (l : List Char) : Bool :=
  !l.isEmpty && sylRun l

/-- A character matched by `[a-z\s]` under the `i` flag. -/
def isLetterOrSpace (c : Char) : Bool :=
  ('a' ≤ c && c ≤ 'z') || ('A' ≤ c && c ≤ 'Z') || jsIsSpace c

/-- Regex 2 of `isLikelyMusic`: `/^[a-z\s]{1,3}$/i`. -/
def musicPattern2 (l : List Char) : Bool :=
  decide (1 ≤ l.length) && decide (l.length ≤ 3) && l.all isLetterOrSpace

/-- A JavaScript word character (`\w` / the `\b` boundary class):
`[A-Za-z0-9_]`. -/
def isWordChar (c : Char) : Bool :=
  ('a' ≤ c && c ≤ 'z') || ('A' ≤ c && c ≤ 'Z') || ('0' ≤ c && c ≤ '9') || c = '_'

/-- A JavaScript line terminator, which `.` never matches (ASCII range). -/
def isLineTerm (c : Char) : Bool :=
  c = '\n' || c = '\r'

/-- The filler-word alternatives of regex 3,
`/\b(yeah|oh|ah|na|la)\b.*\b(yeah|oh|ah|na|la)\b/i` (src/public/app.js:584). -/
def fillerWords : List (List Char) :=
  [['y', 'e', 'a', 'h'], ['o', 'h'], ['a', 'h'], ['n', 'a'], ['l', 'a']]

/-- The maximal word-character runs of `l`. A `\b`-delimited occurrence of an
all-letter word is exactly a maximal word run equal to it. -/
def wordRuns (l : List Char) : List (List Char) :=
  splitRuns isWordChar l

/-- Regex 3 of `isLikelyMusic`: two whole-word filler occurrences with `.*`
between them; since `.` excludes line terminators, both occurrences must lie
in one terminator-free segment. -/
def musicPattern3 (l : List Char) : Bool :=
  (splitRuns (fun c => !isLineTerm c) l).any fun line =>
    decide (2 ≤ ((wordRuns line).filter fun r => fillerWords.contains r).length)

/-- A character matched by `[\s\-\.\,]`. -/
def isPunctSpaceChar (c : Char) : Bool :=
  jsIsSpace c || c = '-' || c = '.' || c = ','

/-- Regex 4 of `isLikelyMusic`: `/^[\s\-\.\,]*$/`. -/
def musicPattern4 (l : List Char) : Bool :=
  l.all isPunctSpaceChar

/-- The repetition check of `isLikelyMusic` (src/public/app.js:598-605):
split the trimmed lowercased text on whitespace; with more than two words,
discard when distinct words are fewer than half of all words
(`uniqueWords.size / words.length < 0.5`, i.e. `2 * unique < total`). -/
def repetitionCheck (l : List Char) : Bool :=
  let words := splitRuns (fun c => !jsIsSpace c) l
  if 2 < words.length then decide (2 * words.dedup.length < words.length)
  else false

/-- Embeds `ScreenAudioToText.isLikelyMusic` (src/public/app.js:579-608): the four
regexes and the repetition check, applied to the lowercased trimmed text. -/
def isLikelyMusic (text : String) : Bool :=
  let lowerText := jsTrim (jsToLower text.data)
  musicPattern1 lowerText || musicPattern2 lowerText || musicPattern3 lowerText ||
    musicPattern4 lowerText || repetitionCheck lowerText

/-! ## Classifier: audio-domain music suppression
(`startAudioMonitoring` / `detectMusic`, identical in
src/public/app.js:524-577 and src/public/app_with_deepgram.js:525-578) -/

/-- One entry of `audioLevelHistory` (src/public/app.js:541-545). -/
structure AudioSample where
  avgFreq : ℚ
  musicScore : ℚ
  timestamp : ℕ
deriving DecidableEq, Repr

/-- Embeds `avgFrequency` (src/public/app.js:534): mean magnitude over all frequency
bins. -/
def avgFrequency (d : List ℕ) : ℚ :=
  (d.sum : ℚ) / d.length

/-- Embeds `highFreqCount` (src/public/app.js:535): bins from index
`bufferLength * 0.6` on (the top 40% of the spectrum) with magnitude
above 100. With the source's `fftSize = 2048` the bin count is 1024, where
the JavaScript float index `⌊1024 * 0.6⌋ = 614` equals `3 * 1024 / 5`. -/
def highFreqCount (d : List ℕ) : ℕ :=
  ((d.drop (3 * d.length / 5)).filter fun v => 100 < v).length

/-- Embeds `lowFreqCount` (src/public/app.js:536): bins below index
`bufferLength * 0.3` (the bottom 30%) with magnitude above 100. -/
def lowFreqCount (d : List ℕ) : ℕ :=
  ((d.take (3 * d.length / 10)).filter fun v => 100 < v).length

/-- Embeds `musicScore` (src/public/app.js:539). -/
def musicScore (d : List ℕ) : ℚ :=
  ((highFreqCount d + lowFreqCount d : ℕ) : ℚ) / d.length

/-- The sample pushed onto `audioLevelHistory` for one frequency-data frame
(src/public/app.js:541-545). -/
def analyzeSample (d : List ℕ) (now : ℕ) : AudioSample :=
  { avgFreq := avgFrequency d, musicScore := musicScore d, timestamp := now }

/-- Push one sample and cap the history at 10 entries
(src/public/app.js:541-550): `push` then, when the length exceeds 10, a
single `shift` removing the oldest entry. -/
def pushSample (h : List AudioSample) (x : AudioSample) : List AudioSample :=
  let h1 := h ++ [x]
  if 10 < h1.length then h1.tail else h1

/-- Embeds `this.musicThreshold` (src/public/app.js:61). -/
def musicThreshold : ℚ := 7 / 10

/-- Embeds `ScreenAudioToText.detectMusic` (src/public/app.js:567-577): `false`
below 5 samples; otherwise compare the means of `musicScore` and `avgFreq`
over the last five samples (`slice(-5)`) against the thresholds. -/
def detectMusic (history : List AudioSample) : Bool :=
  if history.length < 5 then false
  else
    let recent := history.drop (history.length - 5)
    let avgMusicScore := (recent.map AudioSample.musicScore).sum / recent.length
    let avgFreq := (recent.map AudioSample.avgFreq).sum / recent.length
    decide (musicThreshold < avgMusicScore) && decide (50 < avgFreq)

/-- The monitor-loop state: the rolling window and the suppression flag
(src/public/app.js:60-62). -/
structure MonitorState where
  audioLevelHistory : List AudioSample
  suppressTranscription : Bool
deriving DecidableEq, Repr

/-- One iteration of the `monitor` closure of `startAudioMonitoring`
(src/public/app.js:528-561) on an already-analyzed sample: push, cap at 10,
then recompute `suppressTranscription` from `detectMusic` (set on every
iteration, in both directions). -/
def monitorPush (s : MonitorState) (x : AudioSample) : MonitorState :=
  let h := pushSample s.audioLevelHistory x
  { audioLevelHistory := h, suppressTranscription := detectMusic h }

/-- One iteration of the `monitor` closure on a raw frequency-data frame. -/
def monitorStep (s : MonitorState) (d : List ℕ) (now : ℕ) : MonitorState :=
  monitorPush s (analyzeSample d now)

/-! ## Transcript payloads and socket emissions -/

/-- The transcription payload objects built by the providers
(src/utils/deepgram.js:41-51, src/server.js:109-117, part_000:127-131).
`socketId` is optional because the Whisper payload carries none. -/
structure TranscriptionMsg where
  text : String
  confidence : Option ℚ
  isFinal : Bool
  socketId : Option String
  provider : String
deriving DecidableEq, Repr

/-- Payload of a socket emission: a transcript or an error report. -/
inductive Payload where
  | transcript (t : TranscriptionMsg)
  | errorInfo (message : String)
deriving DecidableEq, Repr

/-- Where a Socket.IO emission goes: `socket.emit` to one client, `io.emit`
to every connected client, `socket.broadcast.emit` to every client but the
sender. -/
inductive EmitTarget where
  | toSocket (sid : String)
  | allClients
  | allExcept (sid : String)
deriving DecidableEq, Repr

/-- One server-side socket emission. -/
structure Emission where
  target : EmitTarget
  event : String
  payload : Payload
deriving DecidableEq, Repr

/-- Whether a connected client `listener` receives emission `e`. -/
def receives (listener : String) (e : Emission) : Bool :=
  match e.target with
  | .toSocket s => s == listener
  | .allClients => true
  | .allExcept s => !(s == listener)

/-! ## DeepgramService (src/utils/deepgram.js) -/

/-- Lookup in the `connections` map (association list keyed by socket id). -/
def mapGet (m : List (String × ℕ)) (k : String) : Option ℕ :=
  (m.find? fun p => p.1 == k).map (·.2)

/-- JavaScript `Map.set`: replace the binding of an existing key in place,
otherwise append a new entry. -/
def mapSet (m : List (String × ℕ)) (k : String) (v : ℕ) : List (String × ℕ) :=
  if m.any (fun p => p.1 == k) then m.map fun p => if p.1 == k then (k, v) else p
  else m ++ [(k, v)]

/-- JavaScript `Map.delete`: remove the entry with key `k`. -/
def mapDelete (m : List (String × ℕ)) (k : String) : List (String × ℕ) :=
  m.filter fun p => !(p.1 == k)

/-- State of `DeepgramService`: the `connections` map from socket id to the
stored connection, plus the set of provider connections that have been
opened and not yet closed (`openConns`, tagged with the socket id they were
created for). `nextId` names the next fresh connection. -/
structure DgState where
  connections : List (String × ℕ)
  openConns : List (ℕ × String)
  nextId : ℕ
deriving DecidableEq, Repr

/-- The service as constructed (src/utils/deepgram.js:5-11). -/
def initialDgState : DgState :=
  { connections := [], openConns := [], nextId := 0 }

/-- Embeds `DeepgramService.createLiveConnection` (src/utils/deepgram.js:13-95):
`client.listen.live(...)` opens a fresh provider connection, event handlers
are registered, and `connections.set(socketId, connection)` stores it. No
path closes a previously stored connection for the same socket id: it stays
open (remains in `openConns`) until the provider side closes it. -/
def createLiveConnection (s : DgState) (sid : String) : DgState :=
  { connections := mapSet s.connections sid s.nextId
    openConns := (s.nextId, sid) :: s.openConns
    nextId := s.nextId + 1 }

/-- The `start-screen-share` handler of the Deepgram server variant
(part_000:80-94): unconditionally create a live connection for the socket
(the `deepgram-ready` / `screen-share-started` emissions do not touch the
service state). -/
def dgStartScreenShare (s : DgState) (sid : String) : DgState :=
  createLiveConnection s sid

/-- Embeds `DeepgramService.closeConnection` (src/utils/deepgram.js:117-128).
`finishOk` says whether the underlying `connection.finish()` call succeeds.
Returns the new state, the number of successful underlying closes performed,
and whether the call raised to its caller. The body is
`try { connection.finish(); connections.delete(socketId); } catch { log }`:
a missing entry is a no-op, a `finish` failure leaves the map entry in place
(the `delete` is not reached), and no error ever propagates. -/
def closeConnection (s : DgState) (sid : String) (finishOk : Bool) :
    DgState × ℕ × Bool :=
  match mapGet s.connections sid with
  | none => (s, 0, false)
  | some c =>
    if finishOk then
      ({ s with connections := mapDelete s.connections sid
                openConns := s.openConns.filter fun p => !(p.1 == c) },
       1, false)
    else (s, 0, false)

/-- Embeds `DeepgramService.sendAudioData` (src/utils/deepgram.js:103-115). `ready`
says whether the stored connection reports `getReadyState() === 1`. Returns
the state, whether the call raised to its caller, and how many sends were
attempted on the provider connection. Every branch only logs: a missing or
unready connection logs a warning, and a failing `connection.send` is caught
and logged. The registry is never modified and nothing is rethrown. -/
def sendAudioData (s : DgState) (sid : String) (ready : Bool) :
    DgState × Bool × ℕ :=
  match mapGet s.connections sid with
  | some _ => if ready then (s, false, 1) else (s, false, 0)
  | none => (s, false, 0)

/-- The `Results` handler installed by `createLiveConnection`
(src/utils/deepgram.js:38-58): read `channel.alternatives[0]`; when it exists
and its transcript trims to a nonempty string, build the transcription
payload (with the trimmed text) and hand it to the transcription callback;
otherwise do nothing. `alternatives` models `data.channel.alternatives`, as
pairs of transcript and confidence. -/
def dgResultsHandler (socketId : String) (alternatives : List (String × ℚ))
    (isFin : Bool) : List TranscriptionMsg :=
  match alternatives.head? with
  | some r =>
    if jsTrimStr r.1 ≠ "" then
      [{ text := jsTrimStr r.1, confidence := some r.2, isFinal := isFin,
         socketId := some socketId, provider := "deepgram" }]
    else []
  | none => []

/-! ## Server emission paths -/

/-- The transcription callback installed by the Deepgram server variant
(part_000:22-31): emit `deepgram-transcription` to the originating socket
when it is still connected, and `new-transcription` to every client via
`io.emit`. -/
def dgTranscriptionCallback (connected : List String) (t : TranscriptionMsg) :
    List Emission :=
  (match t.socketId with
   | some sid =>
     if connected.contains sid then
       [{ target := .toSocket sid, event := "deepgram-transcription",
          payload := .transcript t }]
     else []
   | none => []) ++
  [{ target := .allClients, event := "new-transcription", payload := .transcript t }]

/-- The `audio-data` handler of the Deepgram server variant (part_000:97-115).
The handler calls `deepgramService.sendAudioData(...)`, but the service
variable in that file is named `deepgram`: for every nonempty chunk the call
throws a `ReferenceError`, which the handler's `try/catch` absorbs and
reports to the originating client as a `deepgram-error` event. An empty
chunk only logs a warning. The service state is never touched. -/
def dgAudioDataHandler (s : DgState) (sid : String) (chunkSize : ℕ) :
    DgState × List Emission :=
  if 0 < chunkSize then
    (s, [{ target := .toSocket sid, event := "deepgram-error",
           payload := .errorInfo "deepgramService is not defined" }])
  else (s, [])

/-- The `transcription` handler of the Deepgram server variant
(part_000:118-132): rebroadcast the client-supplied payload to every client
via `io.emit`, stamped with the sender's id and the `web-speech-api`
provider tag. -/
def dgTranscriptionRelay (sid : String) (t : TranscriptionMsg) : List Emission :=
  [{ target := .allClients, event := "new-transcription",
     payload := .transcript { t with socketId := some sid,
                                     provider := "web-speech-api" } }]

/-- A Whisper API response as consumed by src/server.js:103-118: `text` is
optional because the guard `transcription.text && ...` treats a missing or
empty text as falsy. -/
structure WhisperResult where
  text : Option String
  language : Option String
deriving DecidableEq, Repr

/-- The emission step of the Whisper `audio-data` handler
(src/server.js:103-118): when `transcription.text` is truthy and trims to a
nonempty string, emit `whisper-transcription` — with the untrimmed text, a
fixed confidence of 0.95 and `is_final: true` — to the originating socket
only. Nothing is broadcast to other clients on this path. -/
def whisperEmits (sid : String) (t : WhisperResult) : List Emission :=
  match t.text with
  | some txt =>
    if txt ≠ "" ∧ jsTrimStr txt ≠ "" then
      [{ target := .toSocket sid, event := "whisper-transcription",
         payload := .transcript { text := txt, confidence := some (19 / 20),
                                  isFinal := true, socketId := none,
                                  provider := "whisper" } }]
    else []
  | none => []

/-- The Whisper `audio-data` handler (src/server.js:88-124): transcribe the
chunk; on success emit per `whisperEmits`, and on any failure the `catch`
emits an explicit `whisper-error` status to the originating client. The
handler keeps no per-session state, so a failure affects no later chunk. -/
def whisperAudioDataHandler (sid : String) (outcome : Except String WhisperResult) :
    List Emission :=
  match outcome with
  | .ok t => whisperEmits sid t
  | .error e =>
    [{ target := .toSocket sid, event := "whisper-error", payload := .errorInfo e }]

/-- The `transcription` handler of src/server.js:134-142: rebroadcast the
client-supplied payload via `socket.broadcast.emit`, i.e. to every client
except the sender, stamped with the sender's id. -/
def whisperTranscriptionRelay (sid : String) (t : TranscriptionMsg) : List Emission :=
  [{ target := .allExcept sid, event := "new-transcription",
     payload := .transcript { t with socketId := some sid } }]

/-! ## Client-side transcript handling -/

/-- One entry of the client's `transcriptions` array. -/
structure TranscriptEntry where
  text : String
  speaker : String
  provider : String
  confidence : ℚ
deriving DecidableEq, Repr

/-- Client state relevant to suppression: the flag written by the audio
monitor and the accumulated transcript. -/
structure ClientState where
  suppressTranscription : Bool
  transcriptions : List TranscriptEntry
deriving DecidableEq, Repr

/-- The `whisper-transcription` socket handler of src/public/app.js:117-129:
`addTranscription` appends the segment (labeled by `detectSpeaker`)
unconditionally. No statement on this path reads `suppressTranscription`. -/
def whisperTranscriptionClientHandler (s : ClientState) (text : String)
    (confidence : ℚ) : ClientState :=
  { s with transcriptions := s.transcriptions ++
      [{ text := text, speaker := detectSpeaker text, provider := "whisper",
         confidence := confidence }] }

/-- One recognition result of the Web Speech API: `results[i][0].transcript`,
`results[i][0].confidence` (possibly `undefined`), `results[i].isFinal`. -/
structure SpeechResult where
  transcript : String
  confidence : Option ℚ
  isFin : Bool
deriving DecidableEq, Repr

/-- Fold step of the `recognition.onresult` loop in
src/public/app_with_deepgram.js:96-137: skip a result whose confidence is
truthy and below 0.5; for a final result, drop it when `isLikelyMusic`
matches, otherwise emit the `transcription` payload to the server and append
it to the transcript; interim results only update the live display. -/
def dgOnresultStep (acc : ClientState × List TranscriptionMsg) (r : SpeechResult) :
    ClientState × List TranscriptionMsg :=
  let lowConf : Bool :=
    match r.confidence with
    | some c => decide (c ≠ 0) && decide (c < 1 / 2)
    | none => false
  if lowConf then acc
  else if r.isFin then
    if isLikelyMusic r.transcript then acc
    else
      ({ acc.1 with transcriptions := acc.1.transcriptions ++
           [{ text := jsTrimStr r.transcript, speaker := detectSpeaker r.transcript,
              provider := "web-speech-api", confidence := r.confidence.getD 0 }] },
       acc.2 ++ [{ text := jsTrimStr r.transcript,
                   confidence := some (r.confidence.getD 0), isFinal := true,
                   socketId := none, provider := "web-speech-api" }])
  else acc

/-- The `recognition.onresult` handler of
src/public/app_with_deepgram.js:88-138: while `suppressTranscription` is set
the handler returns at once, dropping every result in the event; otherwise
it folds `dgOnresultStep` over the results. Returns the new client state and
the `transcription` payloads sent to the server. -/
def dgOnresult (s : ClientState) (results : List SpeechResult) :
    ClientState × List TranscriptionMsg :=
  if s.suppressTranscription then (s, [])
  else results.foldl dgOnresultStep (s, [])

/-! ## Helper lemmas -/

theorem dropWhile_head_false {p : Char → Bool} :
    ∀ {l : List Char} {a : Char} {t : List Char},
      l.dropWhile p = a :: t → p a = false := by
  intro l
  induction l with
  | nil => intro a t h; simp [List.dropWhile] at h
  | cons b l ih =>
    intro a t h
    by_cases hb : p b = true
    · rw [List.dropWhile_cons_of_pos hb] at h; exact ih h
    · rw [List.dropWhile_cons_of_neg hb] at h
      cases h; simpa using hb

theorem all_dropWhile (p : Char → Bool) :
    ∀ l : List Char, (l.dropWhile p).all p = l.all p := by
  intro l
  induction l with
  | nil => rfl
  | cons b l ih =>
    by_cases hb : p b = true
    · rw [List.dropWhile_cons_of_pos hb]; simp [ih, hb]
    · rw [List.dropWhile_cons_of_neg hb]

/-- The trimmed text is empty exactly when the text is all whitespace. -/
theorem jsTrim_eq_nil_iff (l : List Char) :
    jsTrim l = [] ↔ l.all jsIsSpace = true := by
  unfold jsTrim
  rw [List.reverse_eq_nil_iff, List.dropWhile_eq_nil_iff]
  constructor
  · intro h
    rw [← all_dropWhile jsIsSpace l]
    rw [List.all_eq_true]
    intro c hc
    exact h c (by simpa using hc)
  · intro h c hc
    have h' : (l.dropWhile jsIsSpace).all jsIsSpace = true := by
      rw [all_dropWhile jsIsSpace l]; exact h
    rw [List.all_eq_true] at h'
    exact h' c (by simpa using hc)

/-- A nonempty trimmed text contains a non-whitespace character. -/
theorem jsTrim_ne_nil_not_all_space {l : List Char} (h : jsTrim l ≠ []) :
    l.all jsIsSpace = false := by
  rcases hb : l.all jsIsSpace with _ | _
  · rfl
  · exact absurd ((jsTrim_eq_nil_iff l).mpr hb) h

/-! ## Claim C3 -/

/-- Claim C3: for every text string, `detectSpeaker` returns INTERVIEWER iff
the text contains a literal question mark or its lowercased form contains
some term of the fixed bilingual keyword list, and returns SPEAKER
otherwise; in particular `detectSpeaker "Apa itu?" = "INTERVIEWER"` and
`detectSpeaker "Saya setuju." = "SPEAKER"`. -/
theorem detectSpeaker_spec :
    (∀ text : String,
        (detectSpeaker text = "INTERVIEWER" ↔
          (text.data.contains '?' = true ∨
            ∃ w ∈ questionWords, listContains (jsToLower text.data) w.data = true)) ∧
        (detectSpeaker text = "SPEAKER" ↔
          ¬(text.data.contains '?' = true ∨
            ∃ w ∈ questionWords, listContains (jsToLower text.data) w.data = true))) ∧
    detectSpeaker "Apa itu?" = "INTERVIEWER" ∧
    detectSpeaker "Saya setuju." = "SPEAKER" := by
  refine ⟨fun text => ?_, by decide, by decide⟩
  have hiff : ((text.data.contains '?' || questionWords.any fun w =>
      listContains (jsToLower text.data) w.data) = true) ↔
      (text.data.contains '?' = true ∨
        ∃ w ∈ questionWords, listContains (jsToLower text.data) w.data = true) := by
    simp
  have key : ∀ b : Bool,
      ((text.data.contains '?' || questionWords.any fun w =>
        listContains (jsToLower text.data) w.data) = b) →
      detectSpeaker text = (if b then "INTERVIEWER" else "SPEAKER") := by
    intro b hb
    show (if ((text.data.contains '?' || questionWords.any fun w =>
        listContains (jsToLower text.data) w.data)) = true
      then "INTERVIEWER" else "SPEAKER") = _
    rw [hb]
  rcases hb : (text.data.contains '?' || questionWords.any fun w =>
      listContains (jsToLower text.data) w.data) with _ | _
  · have hd : detectSpeaker text = "SPEAKER" := key false hb
    have hr : ¬(text.data.contains '?' = true ∨
        ∃ w ∈ questionWords, listContains (jsToLower text.data) w.data = true) := by
      intro hc
      rw [← hiff] at hc
      rw [hb] at hc
      exact absurd hc (by decide)
    constructor
    · constructor
      · intro hc; rw [hd] at hc; exact absurd hc (by decide)
      · intro hc; exact absurd hc hr
    · exact ⟨fun _ => hr, fun _ => hd⟩
  · have hd : detectSpeaker text = "INTERVIEWER" := key true hb
    have hr := hiff.mp hb
    constructor
    · exact ⟨fun _ => hr, fun _ => hd⟩
    · constructor
      · intro hc; rw [hd] at hc; exact absurd hc (by decide)
      · intro hc; exact absurd hr hc

/-! ## Claim C6 -/

theorem mapGet_mapDelete (m : List (String × ℕ)) (k : String) :
    mapGet (mapDelete m k) k = none := by
  unfold mapGet mapDelete
  rw [Option.map_eq_none']
  rw [List.find?_eq_none]
  intro x hx
  rcases List.mem_filter.mp hx with ⟨_, hk⟩
  simpa using hk

/-- Claim C6: for every session, calling `closeConnection` twice in a row is
idempotent. Whatever the map holds and however the underlying `finish()`
behaves (`b1`, `b2`), neither call raises to its caller, the two calls
together perform at most one successful close of the underlying provider
connection, and after a successful first close the second call is a no-op. -/
theorem closeConnection_idempotent :
    ∀ (s : DgState) (sid : String) (b1 b2 : Bool),
      (closeConnection s sid b1).2.2 = false ∧
      (closeConnection (closeConnection s sid b1).1 sid b2).2.2 = false ∧
      (closeConnection s sid b1).2.1 +
        (closeConnection (closeConnection s sid b1).1 sid b2).2.1 ≤ 1 ∧
      ((closeConnection s sid b1).2.1 = 1 →
        closeConnection (closeConnection s sid b1).1 sid b2 =
          ((closeConnection s sid b1).1, 0, false)) := by
  intro s sid b1 b2
  cases hm : mapGet s.connections sid with
  | none =>
    simp [closeConnection, hm]
  | some c =>
    cases b1 with
    | false =>
      simp only [closeConnection, hm]
      simp only [if_false, Bool.false_eq_true]
      rw [hm]
      cases b2 <;> simp
    | true =>
      have h2 : mapGet (mapDelete s.connections sid) sid = none :=
        mapGet_mapDelete s.connections sid
      simp only [closeConnection, hm, if_true]
      rw [h2]
      simp

/-- Witness for C6: a concrete double close on a service holding one live
connection for socket `a`; the second call is a no-op with no further
underlying close and no error. -/
theorem closeConnection_idempotent_witness :
    closeConnection
        (closeConnection (createLiveConnection initialDgState "a") "a" true).1
        "a" true =
      ((closeConnection (createLiveConnection initialDgState "a") "a" true).1,
       0, false) :=
  (closeConnection_idempotent (createLiveConnection initialDgState "a") "a"
      true true).2.2.2 (by decide)

/-! ## Claim C8 -/

/-- Claim C8: the `audioLevelHistory` rolling window always contains at most
10 samples; a push onto a full window removes exactly the oldest sample;
and after every push the window holds the (at most) 10 most recent samples
in arrival order — pushing an arbitrary arrival sequence `xs` from the
initial empty history leaves exactly the last 10 arrivals. -/
theorem audioLevelHistory_window :
    (∀ (h : List AudioSample) (x : AudioSample),
        h.length ≤ 10 → (pushSample h x).length ≤ 10) ∧
    (∀ (h : List AudioSample) (x : AudioSample),
        h.length = 10 → pushSample h x = h.tail ++ [x]) ∧
    (∀ xs : List AudioSample,
        List.foldl pushSample [] xs = xs.drop (xs.length - 10)) := by
  refine ⟨?_, ?_, ?_⟩
  · intro h x hlen
    unfold pushSample
    by_cases hc : 10 < (h ++ [x]).length
    · simp only [hc, if_true]
      simp at hc ⊢
      omega
    · simp only [hc, if_false]
      simp at hc ⊢
      omega
  · intro h x hlen
    unfold pushSample
    have hc : 10 < (h ++ [x]).length := by simp [hlen]
    simp only [hc, if_true]
    cases h with
    | nil => simp at hlen
    | cons a t => simp
  · intro xs
    induction xs using List.reverseRecOn with
    | nil => simp
    | append_singleton ys x ih =>
      rw [List.foldl_concat, ih]
      by_cases hc : ys.length ≤ 9
      · have h1 : ys.length - 10 = 0 := by omega
        have h2 : ys.length + 1 - 10 = 0 := by omega
        unfold pushSample
        have hc2 : ¬ 10 < (ys.drop (ys.length - 10) ++ [x]).length := by
          simp [List.length_drop]
          omega
        simp only [hc2, if_false]
        rw [h1, List.drop_zero]
        simp [h2]
      · have h10 : 10 ≤ ys.length := by omega
        unfold pushSample
        have hlen : (ys.drop (ys.length - 10)).length = 10 := by
          simp [List.length_drop]
          omega
        have hc2 : 10 < (ys.drop (ys.length - 10) ++ [x]).length := by
          simp [hlen]
        simp only [hc2, if_true]
        have hle : ys.length - 10 ≤ ys.length := by omega
        rw [← List.drop_append_of_le_length hle, List.tail_drop]
        have : (ys ++ [x]).length - 10 = ys.length - 10 + 1 := by
          simp
          omega
        rw [this]

/-- Witness for C8 on a concrete full window of 10 samples: the push keeps
the bound and drops exactly the oldest entry. -/
theorem audioLevelHistory_window_witness :
    (pushSample (List.replicate 10 (AudioSample.mk 0 0 0)) (AudioSample.mk 1 1 1)).length ≤ 10 ∧
    pushSample (List.replicate 10 (AudioSample.mk 0 0 0)) (AudioSample.mk 1 1 1) =
      (List.replicate 10 (AudioSample.mk 0 0 0)).tail ++ [AudioSample.mk 1 1 1] :=
  ⟨audioLevelHistory_window.1 (List.replicate 10 (AudioSample.mk 0 0 0))
      (AudioSample.mk 1 1 1) (by decide),
   audioLevelHistory_window.2.1 (List.replicate 10 (AudioSample.mk 0 0 0))
      (AudioSample.mk 1 1 1) (by decide)⟩

/-! ## Claim C10 -/

/-- A nonempty trimmed text is itself not all-whitespace. -/
theorem jsTrim_not_all_space {l : List Char} (h : jsTrim l ≠ []) :
    (jsTrim l).all jsIsSpace = false := by
  unfold jsTrim at h ⊢
  cases hy : (l.dropWhile jsIsSpace).reverse.dropWhile jsIsSpace with
  | nil => rw [hy] at h; simp at h
  | cons a t =>
    have ha : jsIsSpace a = false := dropWhile_head_false hy
    rw [List.all_reverse]
    simp [ha]

/-- The string `jsTrimStr s` is nonempty as a string iff the trimmed character list is
nonempty. -/
theorem jsTrimStr_ne_empty_iff (l : List Char) :
    jsTrimStr ⟨l⟩ ≠ "" ↔ jsTrim l ≠ [] := by
  unfold jsTrimStr
  simp [String.ext_iff]

/-- Claim C10: the server never emits a transcript event whose text is empty
or whitespace-only. On the Whisper path an event is emitted iff the result's
text trims to a nonempty string (and then the emitted raw text is not
all-whitespace); on the Deepgram `Results` path a payload is produced iff
the first alternative's transcript trims to a nonempty string (and the
emitted trimmed text is not all-whitespace). -/
theorem provider_emit_nonblank :
    (∀ (sid : String) (t : WhisperResult),
        (whisperEmits sid t ≠ [] ↔ jsTrimStr (t.text.getD "") ≠ "") ∧
        (∀ e ∈ whisperEmits sid t, ∀ m : TranscriptionMsg,
          e.payload = Payload.transcript m → m.text.data.all jsIsSpace = false)) ∧
    (∀ (sid : String) (alts : List (String × ℚ)) (b : Bool),
        (dgResultsHandler sid alts b ≠ [] ↔
          jsTrimStr ((alts.head?.map Prod.fst).getD "") ≠ "") ∧
        (∀ m ∈ dgResultsHandler sid alts b, m.text.data.all jsIsSpace = false)) := by
  constructor
  · intro sid t
    cases ht : t.text with
    | none =>
      constructor
      · simp [whisperEmits, ht]
        decide
      · intro e he
        simp [whisperEmits, ht] at he
    | some txt =>
      have hemit : whisperEmits sid t =
          if txt ≠ "" ∧ jsTrimStr txt ≠ "" then
            [{ target := .toSocket sid, event := "whisper-transcription",
               payload := .transcript { text := txt, confidence := some (19 / 20),
                                        isFinal := true, socketId := none,
                                        provider := "whisper" } }]
          else [] := by
        unfold whisperEmits
        rw [ht]
      by_cases hg : txt ≠ "" ∧ jsTrimStr txt ≠ ""
      · constructor
        · rw [hemit, if_pos hg, Option.getD_some]
          simp [hg.2]
        · intro e he m hm
          rw [hemit, if_pos hg] at he
          rcases List.mem_singleton.mp he with rfl
          simp only [Payload.transcript.injEq] at hm
          subst hm
          have htrim : jsTrim txt.data ≠ [] := by
            have h2 := hg.2
            cases txt with
            | mk d => exact (jsTrimStr_ne_empty_iff d).mp h2
          exact jsTrim_ne_nil_not_all_space htrim
      · have hzero : jsTrimStr txt = "" := by
          rcases not_and_or.mp hg with h1 | h1
          · push_neg at h1; subst h1; decide
          · push_neg at h1; exact h1
        constructor
        · rw [hemit, if_neg hg, Option.getD_some]
          simp [hzero]
        · intro e he
          rw [hemit, if_neg hg] at he
          simp at he
  · intro sid alts b
    cases alts with
    | nil =>
      constructor
      · simp only [dgResultsHandler, List.head?_nil, Option.map_none',
          Option.getD_none]
        simp only [ne_eq, not_true_eq_false, false_iff, not_not]
        decide
      · intro m hm
        simp [dgResultsHandler] at hm
    | cons r rest =>
      have hemit : dgResultsHandler sid (r :: rest) b =
          if jsTrimStr r.1 ≠ "" then
            [{ text := jsTrimStr r.1, confidence := some r.2, isFinal := b,
               socketId := some sid, provider := "deepgram" }]
          else [] := by
        unfold dgResultsHandler
        rfl
      by_cases hg : jsTrimStr r.1 ≠ ""
      · constructor
        · rw [hemit, if_pos hg]
          simp [hg]
        · intro m hm
          rw [hemit, if_pos hg] at hm
          rcases List.mem_singleton.mp hm with rfl
          have htrim : jsTrim r.1.data ≠ [] := by
            cases hr : r.1 with
            | mk d => rw [hr] at hg; exact (jsTrimStr_ne_empty_iff d).mp hg
          simp only [jsTrimStr]
          exact jsTrim_not_all_space htrim
      · constructor
        · rw [hemit, if_neg hg]
          simp only [ne_eq, not_not] at hg
          simp [hg]
        · intro m hm
          rw [hemit, if_neg hg] at hm
          simp at hm

/-- Witness for C10: concrete provider results whose emitted transcript
texts are not whitespace-only. -/
theorem provider_emit_nonblank_witness :
    (TranscriptionMsg.mk " Halo " (some (19 / 20)) true none "whisper").text.data.all
        jsIsSpace = false ∧
    (TranscriptionMsg.mk "Halo dunia" (some (9 / 10)) true (some "a") "deepgram").text.data.all
        jsIsSpace = false :=
  ⟨(provider_emit_nonblank.1 "a" ⟨some " Halo ", some "id"⟩).2
      ⟨.toSocket "a", "whisper-transcription",
        .transcript (TranscriptionMsg.mk " Halo " (some (19 / 20)) true none "whisper")⟩
      (List.mem_singleton.mpr rfl)
      (TranscriptionMsg.mk " Halo " (some (19 / 20)) true none "whisper") rfl,
   (provider_emit_nonblank.2 "a" [("Halo dunia ", 9 / 10)] true).2
      (TranscriptionMsg.mk "Halo dunia" (some (9 / 10)) true (some "a") "deepgram")
      (List.mem_singleton.mpr rfl)⟩

/-! ## Claim C2 -/

/-- A push produces a suffix of `h ++ [x]`: either the whole of it or, when
the cap is exceeded, everything after the oldest entry. -/
theorem pushSample_eq_drop (h : List AudioSample) (x : AudioSample) :
    pushSample h x = (h ++ [x]).drop 0 ∨ pushSample h x = (h ++ [x]).drop 1 := by
  unfold pushSample
  by_cases hc : 10 < (h ++ [x]).length
  · right
    simp only [hc, if_true]
    cases h with
    | nil => simp at hc
    | cons a t => simp
  · left
    simp only [hc, if_false]
    simp

/-- Folding pushes over an arrival segment yields a suffix of the
concatenation: pushes append at the back and only ever trim at the front. -/
theorem foldl_pushSample_eq_drop :
    ∀ (xs h : List AudioSample), ∃ k, List.foldl pushSample h xs = (h ++ xs).drop k := by
  intro xs
  induction xs with
  | nil => intro h; exact ⟨0, by simp⟩
  | cons x xs ih =>
    intro h
    rw [List.foldl_cons]
    rcases ih (pushSample h x) with ⟨k, hk⟩
    rcases pushSample_eq_drop h x with hp | hp
    · refine ⟨0 + k, ?_⟩
      rw [hk, hp]
      rw [← List.drop_drop]
      have : (h ++ [x]).drop 0 ++ xs = ((h ++ [x]) ++ xs).drop 0 := by simp
      rw [this]
      simp
    · refine ⟨1 + k, ?_⟩
      rw [hk, hp]
      rw [← List.drop_drop]
      have h1 : (1 : ℕ) ≤ (h ++ [x]).length := by simp
      rw [← List.drop_append_of_le_length h1]
      simp

/-- The window length after a fold is at least the smaller of 10 and the
total number of samples ever pushed. -/
theorem foldl_pushSample_length :
    ∀ (xs h : List AudioSample),
      min 10 (h.length + xs.length) ≤ (List.foldl pushSample h xs).length := by
  intro xs
  induction xs with
  | nil => intro h; simp [Nat.min_le_right]
  | cons x xs ih =>
    intro h
    rw [List.foldl_cons]
    have hL : (pushSample h x).length = h.length ∧ 10 ≤ h.length ∨
        (pushSample h x).length = h.length + 1 := by
      unfold pushSample
      by_cases hc : 10 < (h ++ [x]).length
      · left
        simp only [hc, if_true]
        simp at hc ⊢
        omega
      · right
        simp only [hc, if_false]
        simp
    have := ih (pushSample h x)
    rcases hL with ⟨he, h10⟩ | he <;> rw [he] at this <;> simp at this ⊢ <;> omega

/-- After pushing five fresh samples, the last five entries of the window are
exactly those samples. -/
theorem foldl_pushSample_last_five (h xs : List AudioSample) (h5 : xs.length = 5) :
    (List.foldl pushSample h xs).drop ((List.foldl pushSample h xs).length - 5) = xs := by
  rcases foldl_pushSample_eq_drop xs h with ⟨k, hk⟩
  have hlen : 5 ≤ (List.foldl pushSample h xs).length := by
    have := foldl_pushSample_length xs h
    omega
  rw [hk] at hlen ⊢
  rw [List.length_drop] at hlen ⊢
  rw [List.drop_drop]
  have hkle : k + 5 ≤ (h ++ xs).length := by omega
  have harith : k + ((h ++ xs).length - k - 5) = (h ++ xs).length - 5 := by omega
  rw [harith]
  have hfin : (h ++ xs).length - 5 = h.length := by
    simp [h5]
  rw [hfin, List.drop_left]

/-- The monitor loop folds `pushSample` over the incoming samples. -/
theorem foldl_monitorPush_history :
    ∀ (xs : List AudioSample) (s : MonitorState),
      (List.foldl monitorPush s xs).audioLevelHistory =
        List.foldl pushSample s.audioLevelHistory xs := by
  intro xs
  induction xs with
  | nil => intro s; rfl
  | cons x xs ih =>
    intro s
    rw [List.foldl_cons, List.foldl_cons, ih]
    rfl

/-- After at least one monitor iteration the suppression flag equals
`detectMusic` of the current window. -/
theorem foldl_monitorPush_suppress :
    ∀ (xs : List AudioSample) (s : MonitorState), xs ≠ [] →
      (List.foldl monitorPush s xs).suppressTranscription =
        detectMusic (List.foldl pushSample s.audioLevelHistory xs) := by
  intro xs
  induction xs with
  | nil => intro s h; exact absurd rfl h
  | cons x xs ih =>
    intro s _
    cases hxs : xs with
    | nil =>
      subst hxs
      rfl
    | cons y ys =>
      rw [← hxs, List.foldl_cons, List.foldl_cons]
      rw [ih (monitorPush s x) (by rw [hxs]; exact List.cons_ne_nil y ys)]
      rfl

/-- Claim C2: the music-suppression computation. Each frequency frame is
scored with `avgFrequency` the mean magnitude over all bins and `musicScore`
the count of loud (> 100) bins in the top 40% plus the bottom 30% of the
spectrum, divided by the bin count; with at least five samples in the
window, `detectMusic` holds iff the mean `musicScore` of the last five
exceeds 0.7 and the mean `avgFreq` of the last five exceeds 50; and after
any five consecutive monitor iterations with `musicScore = 0.8` and
`avgFrequency = 60`, the suppression flag is set. -/
theorem musicSuppression_spec :
    (∀ (d : List ℕ) (now : ℕ),
        analyzeSample d now =
          { avgFreq := (d.sum : ℚ) / d.length,
            musicScore :=
              ((((d.drop (3 * d.length / 5)).filter fun v => 100 < v).length +
                ((d.take (3 * d.length / 10)).filter fun v => 100 < v).length : ℕ) : ℚ) /
                d.length,
            timestamp := now }) ∧
    (∀ h : List AudioSample, 5 ≤ h.length →
        (detectMusic h = true ↔
          7 / 10 < ((h.drop (h.length - 5)).map AudioSample.musicScore).sum / 5 ∧
          50 < ((h.drop (h.length - 5)).map AudioSample.avgFreq).sum / 5)) ∧
    (∀ (s : MonitorState) (t1 t2 t3 t4 t5 : ℕ),
        (List.foldl monitorPush s
          [⟨60, 4 / 5, t1⟩, ⟨60, 4 / 5, t2⟩, ⟨60, 4 / 5, t3⟩,
           ⟨60, 4 / 5, t4⟩, ⟨60, 4 / 5, t5⟩]).suppressTranscription = true) := by
  refine ⟨fun d now => rfl, ?_, ?_⟩
  · intro h h5
    unfold detectMusic
    rw [if_neg (by omega : ¬ h.length < 5)]
    have hlen : (h.drop (h.length - 5)).length = 5 := by
      rw [List.length_drop]; omega
    show (decide (musicThreshold <
        (List.map AudioSample.musicScore (h.drop (h.length - 5))).sum /
          ((h.drop (h.length - 5)).length : ℚ)) &&
      decide (50 <
        (List.map AudioSample.avgFreq (h.drop (h.length - 5))).sum /
          ((h.drop (h.length - 5)).length : ℚ))) = true ↔ _
    rw [hlen]
    simp only [Bool.and_eq_true, decide_eq_true_iff, musicThreshold]
    norm_num
  · intro s t1 t2 t3 t4 t5
    set xs : List AudioSample :=
      [⟨60, 4 / 5, t1⟩, ⟨60, 4 / 5, t2⟩, ⟨60, 4 / 5, t3⟩,
       ⟨60, 4 / 5, t4⟩, ⟨60, 4 / 5, t5⟩] with hxs
    rw [foldl_monitorPush_suppress xs s (by rw [hxs]; simp)]
    set H := List.foldl pushSample s.audioLevelHistory xs with hH
    have hxs5 : xs.length = 5 := by rw [hxs]; rfl
    have hlen : 5 ≤ H.length := by
      have hb := foldl_pushSample_length xs s.audioLevelHistory
      rw [← hH, hxs5] at hb
      omega
    have hlast : H.drop (H.length - 5) = xs :=
      foldl_pushSample_last_five s.audioLevelHistory xs hxs5
    unfold detectMusic
    rw [if_neg (by omega : ¬ H.length < 5), hlast, hxs]
    simp only [List.map_cons, List.map_nil, List.sum_cons, List.sum_nil,
      List.length_cons, List.length_nil, Bool.and_eq_true, decide_eq_true_iff,
      musicThreshold]
    norm_num

/-- Witness for C2 on a concrete five-sample window with
`musicScore = 0.8` and `avgFreq = 60`: `detectMusic` fires. -/
theorem musicSuppression_spec_witness :
    detectMusic (List.replicate 5 (AudioSample.mk 60 (4 / 5) 0)) = true :=
  (musicSuppression_spec.2.1 (List.replicate 5 (AudioSample.mk 60 (4 / 5) 0))
      (by simp)).mpr (by simp [List.replicate]; norm_num)

/-! ## Claim C1 -/

/-- Number of entries of the connections map carrying key `k`. -/
def countKey (m : List (String × ℕ)) (k : String) : ℕ :=
  (m.filter fun p => p.1 == k).length

theorem filter_map_length {α : Type} (f : α → α) (q : α → Bool) :
    ∀ m : List α, (∀ p ∈ m, q (f p) = q p) →
      ((m.map f).filter q).length = (m.filter q).length := by
  intro m
  induction m with
  | nil => intro _; rfl
  | cons p m ih =>
    intro hq
    have hp := hq p (List.mem_cons_self p m)
    have hrest : ∀ x ∈ m, q (f x) = q x := fun x hx => hq x (List.mem_cons_of_mem p hx)
    simp only [List.map_cons, List.filter_cons, hp]
    by_cases hqp : q p = true
    · simp [hqp, ih hrest]
    · simp [hqp, ih hrest]

theorem countKey_mapSet_self (m : List (String × ℕ)) (k : String) (v : ℕ)
    (hm : countKey m k ≤ 1) : countKey (mapSet m k v) k = 1 := by
  unfold mapSet
  by_cases ha : m.any (fun p => p.1 == k) = true
  · rw [if_pos ha]
    have hpres : countKey (m.map fun p => if p.1 == k then (k, v) else p) k =
        countKey m k := by
      unfold countKey
      apply filter_map_length
      intro p _
      by_cases hp : (p.1 == k) = true
      · have : p.1 = k := by simpa using hp
        simp [hp, this]
      · simp [hp]
    rcases List.any_eq_true.mp ha with ⟨x, hx, hqx⟩
    have hpos : 1 ≤ countKey m k := by
      have : x ∈ m.filter fun p => p.1 == k := List.mem_filter.mpr ⟨hx, hqx⟩
      have := List.length_pos.mpr (List.ne_nil_of_mem this)
      unfold countKey
      omega
    omega
  · rw [if_neg ha]
    have hzero : countKey m k = 0 := by
      unfold countKey
      rw [List.filter_eq_nil_iff.mpr]
      · rfl
      · intro p hp
        intro hc
        exact ha (List.any_eq_true.mpr ⟨p, hp, hc⟩)
    unfold countKey at hzero ⊢
    rw [List.filter_append, List.length_append, hzero]
    simp

theorem countKey_mapSet_le (m : List (String × ℕ)) (k k' : String) (v : ℕ)
    (hm : ∀ j, countKey m j ≤ 1) : countKey (mapSet m k v) k' ≤ 1 := by
  unfold mapSet
  by_cases ha : m.any (fun p => p.1 == k) = true
  · rw [if_pos ha]
    have hpres : countKey (m.map fun p => if p.1 == k then (k, v) else p) k' =
        countKey m k' := by
      unfold countKey
      apply filter_map_length
      intro p _
      by_cases hp : (p.1 == k) = true
      · have : p.1 = k := by simpa using hp
        simp [hp, this]
      · simp [hp]
    rw [hpres]
    exact hm k'
  · rw [if_neg ha]
    unfold countKey
    rw [List.filter_append, List.length_append]
    by_cases hk : (k == k') = true
    · have hkeq : k = k' := by simpa using hk
      have hzero : (m.filter fun p => p.1 == k').length = 0 := by
        rw [List.filter_eq_nil_iff.mpr]
        · rfl
        · intro p hp hc
          rw [← hkeq] at hc
          exact ha (List.any_eq_true.mpr ⟨p, hp, hc⟩)
      simp [hzero, hk]
    · have hone : (([(k, v)].filter fun p => p.1 == k')).length = 0 := by
        simp [List.filter_cons, hk]
      rw [hone]
      have := hm k'
      unfold countKey at this
      omega

/-- Counterexample to claim C1: handling a second `start-screen-share`
request for the same socket id `a` opens a second provider connection while
the first, never closed, is still open — after the two requests both
connections 0 and 1 created for session `a` are live. -/
theorem secondStart_leaves_two_live_connections :
    ((dgStartScreenShare (dgStartScreenShare initialDgState "a") "a").openConns.filter
        fun p => p.2 == "a").length = 2 ∧
    (dgStartScreenShare (dgStartScreenShare initialDgState "a") "a").openConns =
      [(1, "a"), (0, "a")] := by
  constructor <;> rfl

/-- Amended claim C1: the `connections` registry tracks at most one stored
connection per socket id (a repeated start replaces the stored reference),
but handling a start request opens a fresh provider connection without
closing the previously stored one — `openConns` only grows, so two live
provider connections can coexist for one socket id. -/
theorem startScreenShare_single_tracked :
    ∀ (s : DgState) (sid : String),
      (∀ k, countKey s.connections k ≤ 1) →
      (countKey (dgStartScreenShare s sid).connections sid = 1 ∧
       (∀ k, countKey (dgStartScreenShare s sid).connections k ≤ 1) ∧
       (dgStartScreenShare s sid).openConns = (s.nextId, sid) :: s.openConns) := by
  intro s sid hm
  refine ⟨?_, ?_, rfl⟩
  · exact countKey_mapSet_self s.connections sid s.nextId (hm sid)
  · intro k
    exact countKey_mapSet_le s.connections sid k s.nextId hm

/-- Witness for the amended C1 at the initial service state. -/
theorem startScreenShare_single_tracked_witness :
    countKey (dgStartScreenShare initialDgState "a").connections "a" = 1 :=
  (startScreenShare_single_tracked initialDgState "a"
      (fun k => by simp [countKey, initialDgState])).1

/-! ## Claim C4 -/

/-- The "composed solely of short filler syllables repeated" shape as a
proposition: a concatenation of syllables from `fillerSyllables`. -/
inductive SylConcat : List Char → Prop where
  | nil : SylConcat []
  | cons (s t : List Char) : s ∈ fillerSyllables → SylConcat t → SylConcat (s ++ t)

theorem sylRun_sound : ∀ l : List Char, sylRun l = true → SylConcat l
  | [], _ => SylConcat.nil
  | a :: b :: t, h => by
    have h' : (fillerSyllables.contains [a, b] && sylRun t) = true := h
    rw [Bool.and_eq_true] at h'
    exact SylConcat.cons [a, b] t (List.elem_iff.mp h'.1) (sylRun_sound t h'.2)
  | [a], h => by
    have h' : false = true := h
    exact absurd h' (by decide)

theorem sylConcat_run {l : List Char} (h : SylConcat l) : sylRun l = true := by
  induction h with
  | nil => rfl
  | cons s t hs _ ih =>
    fin_cases hs <;> simp [sylRun, ih] <;> decide

/-- The syllable regex matches exactly the syllable concatenations. -/
theorem sylRun_eq_true_iff (l : List Char) : sylRun l = true ↔ SylConcat l :=
  ⟨sylRun_sound l, sylConcat_run⟩

/-- The lowercased trimmed text the filter actually inspects. -/
def normText (text : String) : List Char :=
  jsTrim (jsToLower text.data)

theorem musicPattern1_iff (l : List Char) :
    musicPattern1 l = true ↔ (l ≠ [] ∧ SylConcat l) := by
  simp [musicPattern1, Bool.and_eq_true, Bool.not_eq_true',
    List.isEmpty_eq_false, sylRun_eq_true_iff]

theorem musicPattern2_iff (l : List Char) :
    musicPattern2 l = true ↔
      (1 ≤ l.length ∧ l.length ≤ 3 ∧ ∀ c ∈ l, isLetterOrSpace c = true) := by
  simp [musicPattern2, List.all_eq_true, and_assoc]

theorem musicPattern3_iff (l : List Char) :
    musicPattern3 l = true ↔
      ∃ line ∈ splitRuns (fun c => !isLineTerm c) l,
        2 ≤ ((wordRuns line).filter fun r => fillerWords.contains r).length := by
  simp [musicPattern3, List.any_eq_true]

theorem musicPattern4_iff (l : List Char) :
    musicPattern4 l = true ↔ ∀ c ∈ l, isPunctSpaceChar c = true := by
  simp [musicPattern4, List.all_eq_true]

theorem repetitionCheck_iff (l : List Char) :
    repetitionCheck l = true ↔
      (2 < (splitRuns (fun c => !jsIsSpace c) l).length ∧
        2 * (splitRuns (fun c => !jsIsSpace c) l).dedup.length <
          (splitRuns (fun c => !jsIsSpace c) l).length) := by
  unfold repetitionCheck
  by_cases h : 2 < (splitRuns (fun c => !jsIsSpace c) l).length
  · simp [h]
  · simp [h]

/-- A representative ASCII punctuation set, used to read the claim-side
shape "a string consisting only of punctuation/whitespace". -/
def specPunctChars : List Char :=
  ['!', '"', '#', '$', '%', '&', '(', ')', '*', '+', ',', '-', '.', '/',
   ':', ';', '<', '=', '>', '?', '@', '[', ']', '^', '_', '~']

/-- The five discard shapes exactly as claim C4 words them (read on the
lowercased trimmed text): solely filler syllables; 1–3 letters only; two or
more filler words separated by arbitrary content; only punctuation or
whitespace; or a multi-word text with unique/total word ratio below 1/2. -/
def claimMusicShapes (text : String) : Prop :=
  (normText text ≠ [] ∧ SylConcat (normText text)) ∨
  (1 ≤ (normText text).length ∧ (normText text).length ≤ 3 ∧
    ∀ c ∈ normText text, c.isAlpha = true) ∨
  (2 ≤ ((wordRuns (normText text)).filter fun r => fillerWords.contains r).length) ∨
  (∀ c ∈ normText text, jsIsSpace c = true ∨ c ∈ specPunctChars) ∨
  (2 ≤ (splitRuns (fun c => !jsIsSpace c) (normText text)).length ∧
    2 * (splitRuns (fun c => !jsIsSpace c) (normText text)).dedup.length <
      (splitRuns (fun c => !jsIsSpace c) (normText text)).length)

/-- Counterexample to claim C4: the text `"!!!"` consists only of
punctuation, so the claim's shape list discards it, but `isLikelyMusic` does
not match it — the source's punctuation class covers only whitespace,
hyphen, period and comma. -/
theorem claimShapes_mismatch_bang :
    claimMusicShapes "!!!" ∧ isLikelyMusic "!!!" = false := by
  constructor
  · unfold claimMusicShapes
    refine Or.inr (Or.inr (Or.inr (Or.inl ?_)))
    have hn : normText "!!!" = ['!', '!', '!'] := rfl
    rw [hn]
    intro c hc
    fin_cases hc <;> (right; decide)
  · decide

/-- Amended claim C4: `isLikelyMusic` discards a final transcript text iff
its lowercased trimmed form matches one of: a nonempty concatenation of the
filler syllables; a string of 1–3 characters that are letters or whitespace;
two or more whole filler words with no line terminator between them; a
string of only whitespace, hyphens, periods and commas; or more than two
whitespace-separated words of which fewer than half are distinct. In
particular `"la la la"` is discarded and `"The system scales well"` is
not. -/
theorem isLikelyMusic_characterization :
    (∀ text : String,
        isLikelyMusic text = true ↔
          ((normText text ≠ [] ∧ SylConcat (normText text)) ∨
           (1 ≤ (normText text).length ∧ (normText text).length ≤ 3 ∧
             ∀ c ∈ normText text, isLetterOrSpace c = true) ∨
           (∃ line ∈ splitRuns (fun c => !isLineTerm c) (normText text),
             2 ≤ ((wordRuns line).filter fun r => fillerWords.contains r).length) ∨
           (∀ c ∈ normText text, isPunctSpaceChar c = true) ∨
           (2 < (splitRuns (fun c => !jsIsSpace c) (normText text)).length ∧
             2 * (splitRuns (fun c => !jsIsSpace c) (normText text)).dedup.length <
               (splitRuns (fun c => !jsIsSpace c) (normText text)).length))) ∧
    isLikelyMusic "la la la" = true ∧
    isLikelyMusic "The system scales well" = false := by
  refine ⟨fun text => ?_, by decide, by decide⟩
  show (musicPattern1 (normText text) || musicPattern2 (normText text) ||
      musicPattern3 (normText text) || musicPattern4 (normText text) ||
      repetitionCheck (normText text)) = true ↔ _
  simp only [Bool.or_eq_true, musicPattern1_iff, musicPattern2_iff,
    musicPattern3_iff, musicPattern4_iff, repetitionCheck_iff, or_assoc]

/-! ## Claim C5 -/

/-- Counterexample to claim C5: a successful final Whisper result for socket
`a` produces exactly one emission, addressed to `a` alone — the other
connected listener `b` receives nothing, so batch-provider finals are not
broadcast. -/
theorem whisperFinal_not_broadcast :
    (whisperAudioDataHandler "a"
        (Except.ok ⟨some "Halo dunia", some "id"⟩)).all
      (fun e => !(receives "b" e)) = true ∧
    (whisperAudioDataHandler "a"
        (Except.ok ⟨some "Halo dunia", some "id"⟩)).length = 1 :=
  ⟨rfl, rfl⟩

/-- Amended claim C5: delivery is per provider path. Deepgram segments are
delivered to the originating connection (when connected) and to every
connected client via `io.emit`, attributed with the originating socket id
and the `deepgram` provider tag; Whisper finals are delivered only to the
originating connection; Web-Speech fallback finals are stamped with the
sender's id and rebroadcast — to every client in the Deepgram server
variant, but excluding the originator in the Whisper server variant. -/
theorem transcript_delivery_per_path :
    (∀ (connected : List String) (t : TranscriptionMsg) (o : String),
        t.socketId = some o → o ∈ connected →
        (∃ e ∈ dgTranscriptionCallback connected t,
            e.event = "deepgram-transcription" ∧ receives o e = true ∧
            e.payload = Payload.transcript t) ∧
        (∀ listener : String, ∃ e ∈ dgTranscriptionCallback connected t,
            e.event = "new-transcription" ∧ receives listener e = true ∧
            e.payload = Payload.transcript t)) ∧
    (∀ (sid : String) (alts : List (String × ℚ)) (b : Bool),
        ∀ m ∈ dgResultsHandler sid alts b,
          m.socketId = some sid ∧ m.provider = "deepgram") ∧
    (∀ (sid : String) (t : WhisperResult),
        ∀ e ∈ whisperEmits sid t, e.target = EmitTarget.toSocket sid) ∧
    (∀ (sid : String) (t : TranscriptionMsg) (listener : String),
        listener ≠ sid →
        ∃ e ∈ whisperTranscriptionRelay sid t,
          receives listener e = true ∧
          e.payload = Payload.transcript { t with socketId := some sid }) ∧
    (∀ (sid : String) (t : TranscriptionMsg) (listener : String),
        ∃ e ∈ dgTranscriptionRelay sid t,
          receives listener e = true ∧
          e.payload = Payload.transcript
            { t with socketId := some sid, provider := "web-speech-api" }) ∧
    (∀ (sid : String) (t : TranscriptionMsg),
        ∀ e ∈ whisperTranscriptionRelay sid t, receives sid e = false) := by
  refine ⟨?_, ?_, ?_, ?_, ?_, ?_⟩
  · intro connected t o hsid hconn
    have hc : connected.contains o = true := List.elem_iff.mpr hconn
    have hlist : dgTranscriptionCallback connected t =
        [{ target := .toSocket o, event := "deepgram-transcription",
           payload := .transcript t },
         { target := .allClients, event := "new-transcription",
           payload := .transcript t }] := by
      unfold dgTranscriptionCallback
      rw [hsid]
      show ((if connected.contains o = true
          then ([{ target := EmitTarget.toSocket o,
                   event := "deepgram-transcription",
                   payload := Payload.transcript t }] : List Emission)
          else []) ++
          ([{ target := EmitTarget.allClients, event := "new-transcription",
              payload := Payload.transcript t }] : List Emission)) = _
      rw [if_pos hc]
      rfl
    constructor
    · refine ⟨{ target := .toSocket o, event := "deepgram-transcription",
                payload := .transcript t }, ?_, rfl, ?_, rfl⟩
      · rw [hlist]
        exact List.mem_cons_self _ _
      · simp [receives]
    · intro listener
      refine ⟨{ target := .allClients, event := "new-transcription",
                payload := .transcript t }, ?_, rfl, rfl, rfl⟩
      rw [hlist]
      simp
  · intro sid alts b m hm
    cases alts with
    | nil => simp [dgResultsHandler] at hm
    | cons r rest =>
      have hm' : m ∈ (if jsTrimStr r.1 ≠ "" then
          [{ text := jsTrimStr r.1, confidence := some r.2, isFinal := b,
             socketId := some sid, provider := "deepgram" }]
          else ([] : List TranscriptionMsg)) := hm
      by_cases hg : jsTrimStr r.1 ≠ ""
      · rw [if_pos hg] at hm'
        rcases List.mem_singleton.mp hm' with rfl
        exact ⟨rfl, rfl⟩
      · rw [if_neg hg] at hm'
        simp at hm'
  · intro sid t e he
    cases ht : t.text with
    | none => unfold whisperEmits at he; rw [ht] at he; simp at he
    | some txt =>
      unfold whisperEmits at he
      rw [ht] at he
      have he' : e ∈ (if txt ≠ "" ∧ jsTrimStr txt ≠ "" then
          [{ target := EmitTarget.toSocket sid, event := "whisper-transcription",
             payload := Payload.transcript
               { text := txt, confidence := some (19 / 20), isFinal := true,
                 socketId := none, provider := "whisper" } }]
          else ([] : List Emission)) := he
      by_cases hg : txt ≠ "" ∧ jsTrimStr txt ≠ ""
      · rw [if_pos hg] at he'
        rcases List.mem_singleton.mp he' with rfl
        rfl
      · rw [if_neg hg] at he'
        simp at he'
  · intro sid t listener hne
    refine ⟨{ target := .allExcept sid, event := "new-transcription",
              payload := .transcript { t with socketId := some sid } }, ?_, ?_, rfl⟩
    · simp [whisperTranscriptionRelay]
    · simp [receives]
      exact fun h => absurd h.symm hne
  · intro sid t listener
    refine ⟨{ target := .allClients, event := "new-transcription",
              payload := .transcript
                { t with socketId := some sid, provider := "web-speech-api" } },
            ?_, rfl, rfl⟩
    simp [dgTranscriptionRelay]
  · intro sid t e he
    rcases List.mem_singleton.mp he with rfl
    simp [receives]

/-- Witness for the amended C5 on a concrete Deepgram payload with two
connected clients. -/
theorem transcript_delivery_per_path_witness :
    (∃ e ∈ dgTranscriptionCallback ["a", "b"]
          (TranscriptionMsg.mk "Halo dunia" (some (9 / 10)) true (some "a") "deepgram"),
        e.event = "deepgram-transcription" ∧ receives "a" e = true ∧
        e.payload = Payload.transcript
          (TranscriptionMsg.mk "Halo dunia" (some (9 / 10)) true (some "a") "deepgram")) ∧
    (∀ listener : String, ∃ e ∈ dgTranscriptionCallback ["a", "b"]
          (TranscriptionMsg.mk "Halo dunia" (some (9 / 10)) true (some "a") "deepgram"),
        e.event = "new-transcription" ∧ receives listener e = true ∧
        e.payload = Payload.transcript
          (TranscriptionMsg.mk "Halo dunia" (some (9 / 10)) true (some "a") "deepgram")) :=
  transcript_delivery_per_path.1 ["a", "b"]
    (TranscriptionMsg.mk "Halo dunia" (some (9 / 10)) true (some "a") "deepgram")
    "a" rfl (by simp)

/-! ## Claim C7 -/

/-- Claim C7 is violated by src/public/app.js: with `suppressTranscription`
set, the `whisper-transcription` handler still appends the segment to the
transcript (first conjunct — the failing input), while the Web Speech
`onresult` path of src/public/app_with_deepgram.js does drop everything
(second conjunct — the gating the spec describes exists only there). -/
theorem suppressed_segment_still_added :
    (whisperTranscriptionClientHandler ⟨true, []⟩ "Hello world" (19 / 20)).transcriptions =
      [{ text := "Hello world", speaker := "SPEAKER", provider := "whisper",
         confidence := 19 / 20 }] ∧
    dgOnresult ⟨true, []⟩ [⟨"Hello world", some (9 / 10), true⟩] = (⟨true, []⟩, []) :=
  ⟨rfl, rfl⟩

/-! ## Claim C9 -/

/-- Claim C9: a failure while transcribing or sending one chunk is
non-fatal. A Whisper transcription failure is caught and answered with an
explicit `whisper-error` to the originating client; the Deepgram `audio-data`
handler never modifies the connection registry, reports every chunk failure
as an explicit `deepgram-error` event, and handles the next chunk
identically after a failure; and `sendAudioData` absorbs any send failure
without touching the registry or raising. -/
theorem chunk_failure_nonfatal :
    (∀ sid msg : String,
        whisperAudioDataHandler sid (Except.error msg) =
          [{ target := .toSocket sid, event := "whisper-error",
             payload := .errorInfo msg }]) ∧
    (∀ (s : DgState) (sid : String) (n : ℕ), (dgAudioDataHandler s sid n).1 = s) ∧
    (∀ (s : DgState) (sid : String) (n : ℕ), 0 < n →
        (dgAudioDataHandler s sid n).2 =
          [{ target := .toSocket sid, event := "deepgram-error",
             payload := .errorInfo "deepgramService is not defined" }]) ∧
    (∀ (s : DgState) (sid : String) (n1 n2 : ℕ),
        dgAudioDataHandler (dgAudioDataHandler s sid n1).1 sid n2 =
          dgAudioDataHandler s sid n2) ∧
    (∀ (s : DgState) (sid : String) (ready : Bool),
        (sendAudioData s sid ready).1 = s ∧
        (sendAudioData s sid ready).2.1 = false) := by
  refine ⟨fun sid msg => rfl, ?_, ?_, ?_, ?_⟩
  · intro s sid n
    unfold dgAudioDataHandler
    by_cases h : 0 < n
    · rw [if_pos h]
    · rw [if_neg h]
  · intro s sid n h
    unfold dgAudioDataHandler
    rw [if_pos h]
  · intro s sid n1 n2
    unfold dgAudioDataHandler
    by_cases h : 0 < n1
    · rw [if_pos h]
    · rw [if_neg h]
  · intro s sid ready
    cases hm : mapGet s.connections sid with
    | none => simp [sendAudioData, hm]
    | some c => cases ready <;> simp [sendAudioData, hm]

/-- Witness for C9: a failing chunk on the Deepgram path at the initial
state yields an explicit error event to the originating client. -/
theorem chunk_failure_nonfatal_witness :
    (dgAudioDataHandler initialDgState "a" 1).2 =
      [{ target := .toSocket "a", event := "deepgram-error",
         payload := .errorInfo "deepgramService is not defined" }] :=
  chunk_failure_nonfatal.2.2.1 initialDgState "a" 1 (by decide)

end VibeInterview
